import Mathlib

/-!
# Posts API (`routes/api/posts.js`): request handlers over a document store

A shallow embedding of the post handlers of `routes/api/posts.js`.

* JavaScript arrays are Lean lists; `unshift`, `indexOf` and `splice` follow the
  ECMAScript definitions (`indexOf` answers `-1` when nothing matches, `splice`
  counts a negative start from the end of the array).
* A handler is a function from the database and the request to the database
  after the request and the response. The `try` block of a handler is a function
  into `Except JsError _`, the `catch` block is the function applied to the
  thrown error.
* The models `models/Post`, `models/User` and the ORM behind them are not part
  of `routes/api/posts.js`; they are modelled as an in-memory collection of
  documents. Which strings the ORM accepts as a document identifier is a
  parameter `validId` of every definition that looks a document up.
* The handlers are embedded behind the `auth` middleware: `req.user.id` is the
  identity the middleware resolved.
* `console.error` is not modelled.
-/

namespace Posts

/-! ## JavaScript arrays -/

namespace Js

/-- JavaScript `Array.prototype.unshift` with one argument: the array after the call. -/
def unshift {α : Type} (xs : List α) (x : α) : List α := x :: xs

/-- The scan of `Array.prototype.indexOf`, `i` being the index of the head of `xs`. -/
def indexOfFrom : List String → String → Nat → Int
  | [], _, _ => -1
  | y :: ys, x, i => if y = x then (i : Int) else indexOfFrom ys x (i + 1)

/-- JavaScript `Array.prototype.indexOf` on an array of strings: the lowest index holding `x`, or `-1`. -/
def indexOf (xs : List String) (x : String) : Int := indexOfFrom xs x 0

/-- JavaScript `Array.prototype.splice(start, deleteCount)` without inserted items: the array after the call. -/
def splice {α : Type} (xs : List α) (start : Int) (deleteCount : Nat) : List α :=
  let len : Int := xs.length
  let actualStart : Nat := if start < 0 then (max (len + start) 0).toNat else (min start len).toNat
  let actualDeleteCount : Nat := min deleteCount (xs.length - actualStart)
  xs.take actualStart ++ xs.drop (actualStart + actualDeleteCount)

end Js

/-! ## Data model -/

/-- Document identifiers in their string form (`_id.toString()`, `req.user.id`). -/
abbrev ObjectId := String

/-- Modelled from the spec: `models/User` is missing; a user record carries the
display name and avatar the handlers copy, and a password the handlers exclude. -/
structure User where
  id : ObjectId
  name : String
  avatar : String
  password : Option String
deriving DecidableEq, Repr

/-- Modelled from the spec: an entry of `likes` is `{user: identifier}`. -/
structure Like where
  user : ObjectId
deriving DecidableEq, Repr

/-- Modelled from the spec: an entry of `dislikes` is `{user: identifier}`. -/
structure Dislike where
  user : ObjectId
deriving DecidableEq, Repr

/-- Modelled from the spec: a comment embedded in a post (`models/Post` is missing). -/
structure Comment where
  id : ObjectId
  user : ObjectId
  text : String
  name : String
  avatar : String
  date : Nat
deriving DecidableEq, Repr

/-- Modelled from the spec: the post document (`models/Post` is missing). -/
structure Post where
  id : ObjectId
  user : ObjectId
  text : String
  name : String
  avatar : String
  likes : List Like
  dislikes : List Dislike
  comments : List Comment
  date : Nat
deriving DecidableEq, Repr

/-- The two collections the handlers touch. -/
structure DB where
  users : List User
  posts : List Post
deriving DecidableEq, Repr

/-- What the store generates when a document or sub-document is created: its
identifier and the `date` default. -/
structure Fresh where
  _id : ObjectId
  date : Nat
deriving DecidableEq, Repr

/-- A thrown JavaScript error; the handlers only look at `kind`. -/
structure JsError where
  kind : Option String
  message : String
deriving DecidableEq, Repr

/-- The error the ORM throws when a string is not an identifier. -/
def castError : JsError := ⟨some "ObjectId", "Cast to ObjectId failed"⟩

/-- The error of reading a property of `null`. -/
def typeError : JsError := ⟨none, "Cannot read properties of null"⟩

/-! ## Store -/

/-- Modelled from the spec: `findById(id) -> Post | not-found`, failing with a
distinct malformed-id condition on a malformed identifier (`models/Post` and the
ORM are missing). -/
def Post.findById (validId : String → Bool) (db : DB) (id : String) :
    Except JsError (Option Post) :=
  if validId id then .ok (db.posts.find? (fun d => d.id == id)) else .error castError

/-- Modelled from the spec: the user collaborator's lookup by identifier
(`models/User` and the ORM are missing). -/
def User.findById (validId : String → Bool) (db : DB) (id : String) :
    Except JsError (Option User) :=
  if validId id then .ok (db.users.find? (fun d => d.id == id)) else .error castError

/-- The projection `.select('-password')`. -/
def User.selectMinusPassword (user : Option User) : Option User :=
  user.map (fun u => { u with password := none })

/-- Modelled from the spec: `save(post) -> Post` persists the full document
state: the stored document with this identifier is replaced, a new document is
inserted. -/
def Post.save (db : DB) (post : Post) : DB :=
  if db.posts.any (fun d => d.id == post.id) then
    { db with posts := db.posts.map (fun d => if d.id == post.id then post else d) }
  else
    { db with posts := db.posts ++ [post] }

/-- Modelled from the spec: `delete(post) -> void` removes the document. -/
def Post.remove (db : DB) (post : Post) : DB :=
  { db with posts := db.posts.filter (fun d => !(d.id == post.id)) }

/-! ## Requests and responses -/

/-- The caller as resolved by the `auth` middleware: `req.user`. -/
structure ReqUser where
  id : ObjectId
deriving DecidableEq, Repr

/-- The path parameters: `req.params`. -/
structure Params where
  id : String
  comment_id : String
deriving DecidableEq, Repr

/-- The request body: `req.body`; `text` is `none` when the field is absent. -/
structure ReqBody where
  text : Option String
deriving DecidableEq, Repr

/-- A request as the handlers read it. -/
structure Request where
  user : ReqUser
  params : Params
  body : ReqBody
deriving DecidableEq, Repr

/-- A field error of the validation layer. -/
structure ValidationError where
  param : String
  msg : String
deriving DecidableEq, Repr

/-- What a handler sends: the argument of `res.json` or `res.send`. -/
inductive Payload where
  | msg (msg : String)
  | errors (errors : List ValidationError)
  | post (post : Post)
  | likes (likes : List Like)
  | dislikes (dislikes : List Dislike)
  | comments (comments : List Comment)
  | send (text : String)
deriving DecidableEq, Repr

/-- A response: `res.status(status)` (200 when not set) and the payload. -/
structure Response where
  status : Nat
  payload : Payload
deriving DecidableEq, Repr

/-- Express `res.json(payload)` with the default status. -/
def Response.json (payload : Payload) : Response := ⟨200, payload⟩

/-- The `validationResult(req)` for `check('text', 'Text is required').not().isEmpty()`. -/
def validationResult (req : Request) : List ValidationError :=
  if req.body.text.getD "" = "" then [⟨"text", "Text is required"⟩] else []

/-! ## Handlers -/

/-- Route `POST api/posts`: create a post. -/
def createPost (validId : String → Bool) (gen : Fresh) (db : DB) (req : Request) :
    DB × Response :=
  let errors := validationResult req
  if !errors.isEmpty then (db, ⟨400, .errors errors⟩)
  else
    let attempt : Except JsError (DB × Response) :=
      match User.findById validId db req.user.id with
      | .error err => .error err
      | .ok found =>
        match User.selectMinusPassword found with
        | none => .error typeError
        | some user =>
          let newPost : Post :=
            { id := gen._id, text := req.body.text.getD "", name := user.name,
              avatar := user.avatar, user := req.user.id, likes := [], dislikes := [],
              comments := [], date := gen.date }
          .ok (Post.save db newPost, Response.json (.post newPost))
    match attempt with
    | .ok done => done
    | .error _ => (db, ⟨500, .send "Server error post"⟩)

/-- Route `GET api/posts/:id`: get a post by id. -/
def getPostById (validId : String → Bool) (db : DB) (req : Request) : DB × Response :=
  let attempt : Except JsError (DB × Response) :=
    match Post.findById validId db req.params.id with
    | .error err => .error err
    | .ok none => .ok (db, ⟨404, .msg "Post not found"⟩)
    | .ok (some post) => .ok (db, Response.json (.post post))
  match attempt with
  | .ok done => done
  | .error err =>
    if err.kind = some "ObjectId" then (db, ⟨404, .msg "Post not found"⟩)
    else (db, ⟨500, .send "Server Error get post by id"⟩)

/-- Route `DELETE api/posts/:id`: delete a post. -/
def deletePost (validId : String → Bool) (db : DB) (req : Request) : DB × Response :=
  let attempt : Except JsError (DB × Response) :=
    match Post.findById validId db req.params.id with
    | .error err => .error err
    | .ok none => .ok (db, ⟨404, .msg "Post not found"⟩)
    | .ok (some post) =>
      if post.user ≠ req.user.id then .ok (db, ⟨401, .msg "User not authorized"⟩)
      else .ok (Post.remove db post, Response.json (.msg "Post removed"))
  match attempt with
  | .ok done => done
  | .error err =>
    if err.kind = some "ObjectId" then (db, ⟨404, .msg "Post not found"⟩)
    else (db, ⟨500, .send "Server Error delete post"⟩)

/-- Route `PUT api/posts/like/:id`: like a post. -/
def likePost (validId : String → Bool) (db : DB) (req : Request) : DB × Response :=
  let attempt : Except JsError (DB × Response) :=
    match Post.findById validId db req.params.id with
    | .error err => .error err
    | .ok none => .error typeError
    | .ok (some post) =>
      if (post.likes.filter (fun like => like.user == req.user.id)).length > 0 then
        .ok (db, ⟨400, .msg "Hmm!! seems like you want to raise your own likes..!"⟩)
      else
        let post := { post with likes := Js.unshift post.likes { user := req.user.id } }
        .ok (Post.save db post, Response.json (.likes post.likes))
  match attempt with
  | .ok done => done
  | .error _ => (db, ⟨500, .send "Server error likes"⟩)

/-- Route `PUT api/posts/unlike/:id`: unlike a post. -/
def unlikePost (validId : String → Bool) (db : DB) (req : Request) : DB × Response :=
  let attempt : Except JsError (DB × Response) :=
    match Post.findById validId db req.params.id with
    | .error err => .error err
    | .ok none => .error typeError
    | .ok (some post) =>
      if (post.likes.filter (fun like => like.user == req.user.id)).length = 0 then
        .ok (db, ⟨400, .msg "Hmm!! seems like you haven't liked it"⟩)
      else
        let removeIndex := Js.indexOf (post.likes.map (fun like => like.user)) req.user.id
        let post := { post with likes := Js.splice post.likes removeIndex 1 }
        .ok (Post.save db post, Response.json (.likes post.likes))
  match attempt with
  | .ok done => done
  | .error _ => (db, ⟨500, .send "Server error unlikes"⟩)

/-- Route `PUT api/posts/dislike/:id`: dislike a post. -/
def dislikePost (validId : String → Bool) (db : DB) (req : Request) : DB × Response :=
  let attempt : Except JsError (DB × Response) :=
    match Post.findById validId db req.params.id with
    | .error err => .error err
    | .ok none => .error typeError
    | .ok (some post) =>
      if (post.dislikes.filter (fun dislike => dislike.user == req.user.id)).length > 0 then
        .ok (db, ⟨400, .msg "Hmm!! seems like you want to raise your own dislikes..!"⟩)
      else
        let post := { post with dislikes := Js.unshift post.dislikes { user := req.user.id } }
        .ok (Post.save db post, Response.json (.dislikes post.dislikes))
  match attempt with
  | .ok done => done
  | .error _ => (db, ⟨500, .send "Server error dislikes"⟩)

/-- Route `PUT api/posts/undislike/:id`: undislike a post. -/
def undislikePost (validId : String → Bool) (db : DB) (req : Request) : DB × Response :=
  let attempt : Except JsError (DB × Response) :=
    match Post.findById validId db req.params.id with
    | .error err => .error err
    | .ok none => .error typeError
    | .ok (some post) =>
      if (post.dislikes.filter (fun dislike => dislike.user == req.user.id)).length = 0 then
        .ok (db, ⟨400, .msg "Hmm!! seems like you have undisliked it already"⟩)
      else
        let removeIndex :=
          Js.indexOf (post.dislikes.map (fun dislike => dislike.user)) req.user.id
        let post := { post with dislikes := Js.splice post.dislikes removeIndex 1 }
        .ok (Post.save db post, Response.json (.dislikes post.dislikes))
  match attempt with
  | .ok done => done
  | .error _ => (db, ⟨500, .send "Server error undislikes"⟩)

/-- Route `POST api/posts/comment/:id`: comment on a post. The new comment's `id` and
`date` are the ones the store generates. -/
def addComment (validId : String → Bool) (gen : Fresh) (db : DB) (req : Request) :
    DB × Response :=
  let errors := validationResult req
  if !errors.isEmpty then (db, ⟨400, .errors errors⟩)
  else
    let attempt : Except JsError (DB × Response) :=
      match User.findById validId db req.user.id with
      | .error err => .error err
      | .ok found =>
        match Post.findById validId db req.params.id with
        | .error err => .error err
        | .ok post? =>
          match User.selectMinusPassword found with
          | none => .error typeError
          | some user =>
            let newComment : Comment :=
              { id := gen._id, text := req.body.text.getD "", name := user.name,
                avatar := user.avatar, user := req.user.id, date := gen.date }
            match post? with
            | none => .error typeError
            | some post =>
              let post := { post with comments := Js.unshift post.comments newComment }
              .ok (Post.save db post, Response.json (.comments post.comments))
    match attempt with
    | .ok done => done
    | .error _ => (db, ⟨500, .send "Server error comments"⟩)

/-- Route `DELETE api/posts/comment/:id/:comment_id`: delete a comment. The route
carries the `text` check, but the handler never reads `validationResult`. -/
def deleteComment (validId : String → Bool) (db : DB) (req : Request) : DB × Response :=
  let attempt : Except JsError (DB × Response) :=
    match Post.findById validId db req.params.id with
    | .error err => .error err
    | .ok none => .error typeError
    | .ok (some post) =>
      match post.comments.find? (fun comment => comment.id == req.params.comment_id) with
      | none => .ok (db, ⟨404, .msg "!Comment exist developer"⟩)
      | some comment =>
        if comment.user ≠ req.user.id then
          .ok (db, ⟨401, .msg "You are not authorize to do this, Buddy!"⟩)
        else
          let removeIndex :=
            Js.indexOf (post.comments.map (fun comment => comment.user)) req.user.id
          let post := { post with comments := Js.splice post.comments removeIndex 1 }
          .ok (Post.save db post, Response.json (.comments post.comments))
  match attempt with
  | .ok done => done
  | .error _ => (db, ⟨500, .send "Server error delete comment"⟩)

/-! ## Reachable states -/

/-- The routes of the router that can change the store, and `GET api/posts/:id`. -/
inductive Route where
  | createPost | getPostById | deletePost
  | likePost | unlikePost | dislikePost | undislikePost
  | addComment | deleteComment
deriving DecidableEq, Repr

/-- The router: the handler of a route. -/
def Route.handle (validId : String → Bool) (gen : Fresh) (db : DB) (req : Request) :
    Route → DB × Response
  | .createPost => Posts.createPost validId gen db req
  | .getPostById => Posts.getPostById validId db req
  | .deletePost => Posts.deletePost validId db req
  | .likePost => Posts.likePost validId db req
  | .unlikePost => Posts.unlikePost validId db req
  | .dislikePost => Posts.dislikePost validId db req
  | .undislikePost => Posts.undislikePost validId db req
  | .addComment => Posts.addComment validId gen db req
  | .deleteComment => Posts.deleteComment validId db req

/-- The states of the store that requests can produce: no post at first, then
any request on any route; the user collection may change between requests. -/
inductive Reachable (validId : String → Bool) : DB → Prop where
  | init (users : List User) : Reachable validId { users := users, posts := [] }
  | users (db : DB) (users : List User) :
      Reachable validId db → Reachable validId { db with users := users }
  | request (db : DB) (route : Route) (gen : Fresh) (req : Request) :
      Reachable validId db → Reachable validId (route.handle validId gen db req).1

/-- Every user appears at most once in `likes` and at most once in `dislikes`. -/
def Post.ReactsOnce (post : Post) : Prop :=
  (post.likes.map (fun like => like.user)).Nodup ∧
    (post.dislikes.map (fun dislike => dislike.user)).Nodup

instance (post : Post) : Decidable post.ReactsOnce := by
  unfold Post.ReactsOnce; infer_instance

/-! ## Specification vocabulary -/

/-- Spec-side reading of "exactly one entry is removed, the first one whose key is
`u`, every other entry kept in order". -/
def RemovesFirst {α : Type} (key : α → String) (u : String) (before after : List α) : Prop :=
  ∃ pre e post, before = pre ++ e :: post ∧ key e = u ∧ (∀ x ∈ pre, key x ≠ u) ∧
    after = pre ++ post

/-- The comment the add-comment handler builds for a caller whose record is `u`. -/
def newCommentOf (gen : Fresh) (req : Request) (u : User) : Comment :=
  { id := gen._id, text := req.body.text.getD "", name := u.name, avatar := u.avatar,
    user := req.user.id, date := gen.date }

/-- What a request can do to the store: nothing, save one document (which reacts
at most once when the stored documents do), or remove one. -/
def StepShape (db db2 : DB) : Prop :=
  db2 = db ∨
    (∃ q, db2 = Post.save db q ∧ ((∀ p ∈ db.posts, p.ReactsOnce) → q.ReactsOnce)) ∨
    ∃ q, db2 = Post.remove db q

/-! ## Worked store -/

namespace Example

/-- An identifier rule for the worked store: 24 hexadecimal digits. -/
def validId (id : String) : Bool :=
  id.length == 24 && id.data.all (fun c => c.isDigit || ('a' ≤ c && c ≤ 'f'))

def alice : User := ⟨"5f0000000000000000000a11", "Alice", "alice.png", some "secret"⟩
def bob : User := ⟨"5f0000000000000000000b0b", "Bob", "bob.png", some "hunter2"⟩
def carol : User := ⟨"5f0000000000000000000ca7", "Carol", "carol.png", some "pass"⟩

/-- A user whose record is not in the worked store (an account since deleted):
the identity still resolves, the lookup finds nothing. -/
def dave : User := ⟨"5f0000000000000000000dad", "Dave", "dave.png", some "gone"⟩

def bobFirst : Comment :=
  ⟨"5f00000000000000000c0001", bob.id, "first", "Bob", "bob.png", 20⟩
def carolNote : Comment :=
  ⟨"5f00000000000000000c0002", carol.id, "note", "Carol", "carol.png", 30⟩
def bobSecond : Comment :=
  ⟨"5f00000000000000000c0003", bob.id, "second", "Bob", "bob.png", 40⟩

/-- A post of Alice, liked by Carol, disliked by Bob, with three comments (newest first). -/
def hello : Post :=
  { id := "5f0000000000000000000001", user := alice.id, text := "hello", name := "Alice",
    avatar := "alice.png", likes := [⟨carol.id⟩], dislikes := [⟨bob.id⟩],
    comments := [bobSecond, carolNote, bobFirst], date := 10 }

/-- A post of Bob without reactions or comments. -/
def world : Post :=
  { id := "5f0000000000000000000002", user := bob.id, text := "world", name := "Bob",
    avatar := "bob.png", likes := [], dislikes := [], comments := [], date := 11 }

def db : DB := { users := [alice, bob, carol], posts := [hello, world] }

/-- A request of `caller` on the document `id`. -/
def request (caller : User) (id : String) : Request :=
  { user := ⟨caller.id⟩, params := ⟨id, ""⟩, body := ⟨none⟩ }

/-- A request of `caller` on the post `id` with a comment text. -/
def commentRequest (caller : User) (id : String) (text : String) : Request :=
  { user := ⟨caller.id⟩, params := ⟨id, ""⟩, body := ⟨some text⟩ }

/-- A request of `caller` on the comment `comment_id` of the post `id`. -/
def deleteCommentRequest (caller : User) (id : String) (comment_id : String) : Request :=
  { user := ⟨caller.id⟩, params := ⟨id, comment_id⟩, body := ⟨none⟩ }

/-- What the store generates in the worked requests. -/
def gen : Fresh := ⟨"5f00000000000000000c0004", 50⟩

/-- A well-formed identifier no post of the worked store has. -/
def missing : String := "5f0000000000000000000009"

end Example

/-! ## Lemmas on arrays -/

namespace Js

theorem indexOfFrom_append (pre post : List String) (x : String) (i : Nat)
    (hpre : ∀ y ∈ pre, y ≠ x) :
    indexOfFrom (pre ++ x :: post) x i = ((i + pre.length : Nat) : Int) := by
  induction pre generalizing i with
  | nil => simp [indexOfFrom]
  | cons y ys ih =>
    have hy : y ≠ x := hpre y (by simp)
    have hys : ∀ z ∈ ys, z ≠ x := fun z hz => hpre z (by simp [hz])
    rw [List.cons_append, indexOfFrom, if_neg hy, ih (i + 1) hys, List.length_cons]
    congr 1
    omega

theorem splice_length_one {α : Type} (pre post : List α) (e : α) :
    splice (pre ++ e :: post) (pre.length : Int) 1 = pre ++ post := by
  have h1 : ¬ ((pre.length : Int) < 0) := by omega
  have h2 : (min (pre.length : Int) ((pre ++ e :: post).length : Int)).toNat = pre.length := by
    simp only [List.length_append, List.length_cons]
    omega
  have h3 : min 1 ((pre ++ e :: post).length - pre.length) = 1 := by
    simp only [List.length_append, List.length_cons]
    omega
  simp only [splice, if_neg h1, h2, h3]
  rw [List.take_left, List.drop_append_eq_append_drop]
  simp

end Js

/-- The first entry with a given key splits the array around it. -/
theorem exists_first_split {α : Type} (key : α → String) (u : String) (xs : List α)
    (h : ∃ x ∈ xs, key x = u) :
    ∃ pre e post, xs = pre ++ e :: post ∧ key e = u ∧ ∀ x ∈ pre, key x ≠ u := by
  induction xs with
  | nil => simp at h
  | cons y ys ih =>
    by_cases hy : key y = u
    · exact ⟨[], y, ys, rfl, hy, by simp⟩
    · have h2 : ∃ x ∈ ys, key x = u := by
        obtain ⟨x, hx, hxu⟩ := h
        rcases List.mem_cons.mp hx with rfl | hx
        · exact absurd hxu hy
        · exact ⟨x, hx, hxu⟩
      obtain ⟨pre, e, post, rfl, he, hpre⟩ := ih h2
      refine ⟨y :: pre, e, post, rfl, he, ?_⟩
      intro x hx
      rcases List.mem_cons.mp hx with rfl | hx
      · exact hy
      · exact hpre x hx

/-- What `splice(map(key).indexOf(u), 1)` does on an array split at the first
entry with key `u`. -/
theorem splice_indexOf_split {α : Type} (key : α → String) (u : String)
    (pre post : List α) (e : α) (he : key e = u) (hpre : ∀ x ∈ pre, key x ≠ u) :
    Js.splice (pre ++ e :: post) (Js.indexOf ((pre ++ e :: post).map key) u) 1 = pre ++ post := by
  have hidx : Js.indexOf ((pre ++ e :: post).map key) u = (pre.length : Int) := by
    have hpre2 : ∀ y ∈ pre.map key, y ≠ u := by
      intro y hy
      obtain ⟨x, hx, rfl⟩ := List.mem_map.mp hy
      exact hpre x hx
    have := Js.indexOfFrom_append (pre.map key) (post.map key) u 0 hpre2
    simp only [Js.indexOf, List.map_append, List.map_cons, he]
    rw [this]
    simp
  rw [hidx, Js.splice_length_one]

theorem filter_key_length_pos {α : Type} (key : α → String) (u : String) (xs : List α) :
    (xs.filter (fun x => key x == u)).length > 0 ↔ ∃ x ∈ xs, key x = u := by
  rw [gt_iff_lt, List.length_pos_iff_exists_mem]
  constructor
  · rintro ⟨x, hx⟩
    rw [List.mem_filter] at hx
    exact ⟨x, hx.1, by simpa using hx.2⟩
  · rintro ⟨x, hx, hxu⟩
    exact ⟨x, List.mem_filter.mpr ⟨hx, by simpa using hxu⟩⟩

theorem filter_key_length_zero {α : Type} (key : α → String) (u : String) (xs : List α) :
    (xs.filter (fun x => key x == u)).length = 0 ↔ ∀ x ∈ xs, key x ≠ u := by
  have h := filter_key_length_pos key u xs
  constructor
  · intro h0 x hx hxu
    have := h.mpr ⟨x, hx, hxu⟩
    omega
  · intro hall
    by_contra hne
    obtain ⟨x, hx, hxu⟩ := h.mp (Nat.pos_of_ne_zero hne)
    exact hall x hx hxu

/-! ## Lemmas on the store -/

theorem find_id_eq {i : String} {p : Post} {docs : List Post}
    (h : docs.find? (fun d => d.id == i) = some p) : p.id = i := by
  have := List.find?_some h
  simpa using this

theorem Post.findById_ok {validId : String → Bool} {db : DB} {i : String} {found : Option Post}
    (h : Post.findById validId db i = .ok found) :
    validId i = true ∧ db.posts.find? (fun d => d.id == i) = found := by
  unfold Post.findById at h
  split at h
  · next hv => exact ⟨hv, by injection h⟩
  · cases h

theorem Post.findById_id {validId : String → Bool} {db : DB} {i : String} {p : Post}
    (h : Post.findById validId db i = .ok (some p)) : p.id = i :=
  find_id_eq (Post.findById_ok h).2

/-- Looking a document up after documents were replaced by documents with the same
identifier. -/
theorem find_map_same_id (f : Post → Post) (hf : ∀ d, (f d).id = d.id) (i : String)
    (docs : List Post) :
    (docs.map f).find? (fun d => d.id == i) = (docs.find? (fun d => d.id == i)).map f := by
  induction docs with
  | nil => rfl
  | cons d ds ih =>
    simp only [List.map_cons, List.find?_cons, hf]
    cases hd : (d.id == i)
    · simpa using ih
    · simp

/-- Saving a document whose identifier is in the collection replaces it. -/
theorem Post.save_posts_of_find {db : DB} {p q : Post}
    (h : db.posts.find? (fun d => d.id == q.id) = some p) :
    (Post.save db q).posts = db.posts.map (fun d => if d.id == q.id then q else d) := by
  have hany : db.posts.any (fun d => d.id == q.id) = true := by
    rw [List.any_eq_true]
    have hp : (p.id == q.id) = true := by
      have := find_id_eq h
      simp [this]
    exact ⟨p, List.mem_of_find?_eq_some h, hp⟩
  simp [Post.save, hany]

theorem Post.save_users (db : DB) (q : Post) : (Post.save db q).users = db.users := by
  unfold Post.save
  split <;> rfl

/-- After saving a new state `q` of a stored document, a lookup answers `q` for
its identifier and what it answered before for every other identifier. -/
theorem Post.findById_save {validId : String → Bool} {db : DB} {p q : Post}
    (h : Post.findById validId db q.id = .ok (some p)) (i : String) :
    Post.findById validId (Post.save db q) i =
      if i = q.id then .ok (some q) else Post.findById validId db i := by
  obtain ⟨hv, hfind⟩ := Post.findById_ok h
  have hposts := Post.save_posts_of_find hfind
  have hmap := find_map_same_id (fun d => if d.id == q.id then q else d)
    (by intro d; by_cases hd : d.id = q.id <;> simp [hd]) i db.posts
  unfold Post.findById
  rw [hposts, hmap]
  by_cases hi : i = q.id
  · subst hi
    have hpq : p.id = q.id := find_id_eq hfind
    simp [hv, hfind, hpq]
  · simp only [if_neg hi]
    split
    · congr 1
      cases hfi : db.posts.find? (fun d => d.id == i) with
      | none => rfl
      | some d =>
        have hdi : d.id = i := find_id_eq hfi
        have : ¬ d.id = q.id := by rw [hdi]; exact hi
        simp [this]
    · rfl

/-! ## The handlers on an existing post -/

theorem removesFirst_splice {α : Type} (key : α → String) (u : String) (xs : List α)
    (h : ∃ x ∈ xs, key x = u) :
    RemovesFirst key u xs (Js.splice xs (Js.indexOf (xs.map key) u) 1) := by
  obtain ⟨pre, e, post, rfl, he, hpre⟩ := exists_first_split key u xs h
  exact ⟨pre, e, post, rfl, he, hpre, splice_indexOf_split key u pre post e he hpre⟩

theorem likePost_found {validId : String → Bool} {db : DB} {req : Request} {P : Post}
    (hP : Post.findById validId db req.params.id = .ok (some P)) :
    likePost validId db req =
      if (P.likes.filter (fun like => like.user == req.user.id)).length > 0 then
        (db, ⟨400, .msg "Hmm!! seems like you want to raise your own likes..!"⟩)
      else
        (Post.save db { P with likes := { user := req.user.id } :: P.likes },
          ⟨200, .likes ({ user := req.user.id } :: P.likes)⟩) := by
  by_cases hc : (P.likes.filter (fun like => like.user == req.user.id)).length > 0
  · simp only [likePost, hP, Js.unshift, Response.json, if_pos hc]
  · simp only [likePost, hP, Js.unshift, Response.json, if_neg hc]

theorem unlikePost_found {validId : String → Bool} {db : DB} {req : Request} {P : Post}
    (hP : Post.findById validId db req.params.id = .ok (some P)) :
    unlikePost validId db req =
      if (P.likes.filter (fun like => like.user == req.user.id)).length = 0 then
        (db, ⟨400, .msg "Hmm!! seems like you haven't liked it"⟩)
      else
        (Post.save db
            { P with
              likes := Js.splice P.likes
                (Js.indexOf (P.likes.map (fun like => like.user)) req.user.id) 1 },
          ⟨200, .likes (Js.splice P.likes
            (Js.indexOf (P.likes.map (fun like => like.user)) req.user.id) 1)⟩) := by
  by_cases hc : (P.likes.filter (fun like => like.user == req.user.id)).length = 0
  · simp only [unlikePost, hP, Js.unshift, Response.json, if_pos hc]
  · simp only [unlikePost, hP, Js.unshift, Response.json, if_neg hc]

theorem dislikePost_found {validId : String → Bool} {db : DB} {req : Request} {P : Post}
    (hP : Post.findById validId db req.params.id = .ok (some P)) :
    dislikePost validId db req =
      if (P.dislikes.filter (fun dislike => dislike.user == req.user.id)).length > 0 then
        (db, ⟨400, .msg "Hmm!! seems like you want to raise your own dislikes..!"⟩)
      else
        (Post.save db { P with dislikes := { user := req.user.id } :: P.dislikes },
          ⟨200, .dislikes ({ user := req.user.id } :: P.dislikes)⟩) := by
  by_cases hc : (P.dislikes.filter (fun dislike => dislike.user == req.user.id)).length > 0
  · simp only [dislikePost, hP, Js.unshift, Response.json, if_pos hc]
  · simp only [dislikePost, hP, Js.unshift, Response.json, if_neg hc]

theorem undislikePost_found {validId : String → Bool} {db : DB} {req : Request} {P : Post}
    (hP : Post.findById validId db req.params.id = .ok (some P)) :
    undislikePost validId db req =
      if (P.dislikes.filter (fun dislike => dislike.user == req.user.id)).length = 0 then
        (db, ⟨400, .msg "Hmm!! seems like you have undisliked it already"⟩)
      else
        (Post.save db
            { P with
              dislikes := Js.splice P.dislikes
                (Js.indexOf (P.dislikes.map (fun dislike => dislike.user)) req.user.id) 1 },
          ⟨200, .dislikes (Js.splice P.dislikes
            (Js.indexOf (P.dislikes.map (fun dislike => dislike.user)) req.user.id) 1)⟩) := by
  by_cases hc : (P.dislikes.filter (fun dislike => dislike.user == req.user.id)).length = 0
  · simp only [undislikePost, hP, Js.unshift, Response.json, if_pos hc]
  · simp only [undislikePost, hP, Js.unshift, Response.json, if_neg hc]

/-- A lookup of the post a handler has just saved a new state of. -/
theorem Post.findById_save_self {validId : String → Bool} {db : DB} {i : String} {p q : Post}
    (h : Post.findById validId db i = .ok (some p)) (hq : q.id = p.id) :
    Post.findById validId (Post.save db q) i = .ok (some q) := by
  have hi : p.id = i := Post.findById_id h
  have h2 : Post.findById validId db q.id = .ok (some p) := by rw [hq, hi]; exact h
  rw [Post.findById_save h2 i, if_pos (by rw [hq, hi])]

/-! ## Like and unlike -/

/-- C1: for a post `P` found in the store and a caller who is not in `P.likes`,
the like handler answers 200 with the caller's entry in front of `P.likes`, the
unlike handler run next by the same caller on the same post answers 200 with
exactly `P.likes`, and the post stored afterwards is `P` again. -/
theorem like_then_unlike_restores (validId : String → Bool) (db : DB) (req req2 : Request)
    (P : Post) (hP : Post.findById validId db req.params.id = .ok (some P))
    (hU : ∀ like ∈ P.likes, like.user ≠ req.user.id)
    (hcaller : req2.user.id = req.user.id) (hpost : req2.params.id = req.params.id) :
    (likePost validId db req).2 = ⟨200, .likes ({ user := req.user.id } :: P.likes)⟩ ∧
    (unlikePost validId (likePost validId db req).1 req2).2 = ⟨200, .likes P.likes⟩ ∧
    Post.findById validId (unlikePost validId (likePost validId db req).1 req2).1
      req.params.id = .ok (some P) := by
  have hnot : ¬ (P.likes.filter (fun like => like.user == req.user.id)).length > 0 := by
    have := (filter_key_length_zero (fun like : Like => like.user) req.user.id P.likes).mpr hU
    omega
  have hlike := likePost_found hP
  rw [if_neg hnot] at hlike
  have hP1 : Post.findById validId (likePost validId db req).1 req2.params.id
      = .ok (some { P with likes := { user := req.user.id } :: P.likes }) := by
    rw [hlike, hpost]
    exact Post.findById_save_self hP rfl
  have hunlike := unlikePost_found hP1
  have hmem : ¬ (List.filter (fun like : Like => like.user == req2.user.id)
      ({ user := req.user.id } :: P.likes)).length = 0 := by
    simp [hcaller]
  have hsplice : Js.splice (({ user := req.user.id } : Like) :: P.likes)
      (Js.indexOf ((({ user := req.user.id } : Like) :: P.likes).map (fun like => like.user))
        req2.user.id) 1 = P.likes := by
    have := splice_indexOf_split (fun like : Like => like.user) req.user.id [] P.likes
      { user := req.user.id } rfl (by simp)
    rw [hcaller]
    simpa using this
  simp only [if_neg hmem, hsplice] at hunlike
  refine ⟨by rw [hlike], by rw [hunlike], ?_⟩
  rw [hunlike, ← hpost]
  exact Post.findById_save_self hP1 rfl

/-- C1 at the worked store: Bob likes and then unlikes Alice's post. -/
theorem like_then_unlike_restores_witness :
    (likePost Example.validId Example.db (Example.request Example.bob Example.hello.id)).2
      = ⟨200, .likes [⟨Example.bob.id⟩, ⟨Example.carol.id⟩]⟩ ∧
    (unlikePost Example.validId
      (likePost Example.validId Example.db (Example.request Example.bob Example.hello.id)).1
      (Example.request Example.bob Example.hello.id)).2 = ⟨200, .likes [⟨Example.carol.id⟩]⟩ ∧
    Post.findById Example.validId
      (unlikePost Example.validId
        (likePost Example.validId Example.db (Example.request Example.bob Example.hello.id)).1
        (Example.request Example.bob Example.hello.id)).1
      Example.hello.id = .ok (some Example.hello) :=
  like_then_unlike_restores Example.validId Example.db
    (Example.request Example.bob Example.hello.id)
    (Example.request Example.bob Example.hello.id) Example.hello rfl (by decide) rfl rfl

/-- C2: on a post `P` found in the store, the like handler answers 400 with the
conflict message and saves nothing when the caller is in `P.likes`; otherwise it
answers 200 with the caller's entry followed by `P.likes`, which is what it
stores. A second like by the same caller right after answers 400 and leaves the
store, hence the length of `likes`, as the first call left it. -/
theorem like_conflict_or_front (validId : String → Bool) (db : DB) (req req2 : Request)
    (P : Post) (hP : Post.findById validId db req.params.id = .ok (some P))
    (hcaller : req2.user.id = req.user.id) (hpost : req2.params.id = req.params.id) :
    ((∃ like ∈ P.likes, like.user = req.user.id) →
      likePost validId db req =
        (db, ⟨400, .msg "Hmm!! seems like you want to raise your own likes..!"⟩)) ∧
    ((∀ like ∈ P.likes, like.user ≠ req.user.id) →
      (likePost validId db req).2 = ⟨200, .likes ({ user := req.user.id } :: P.likes)⟩ ∧
      Post.findById validId (likePost validId db req).1 req.params.id =
        .ok (some { P with likes := { user := req.user.id } :: P.likes })) ∧
    (∃ P1, Post.findById validId (likePost validId db req).1 req.params.id = .ok (some P1) ∧
      (likePost validId (likePost validId db req).1 req2).2.status = 400 ∧
      (likePost validId (likePost validId db req).1 req2).1 = (likePost validId db req).1 ∧
      ∃ P2, Post.findById validId (likePost validId (likePost validId db req).1 req2).1
          req.params.id = .ok (some P2) ∧
        P2.likes.length = P1.likes.length) := by
  have hlike := likePost_found hP
  have hin : (∃ like ∈ P.likes, like.user = req.user.id) →
      likePost validId db req =
        (db, ⟨400, .msg "Hmm!! seems like you want to raise your own likes..!"⟩) := by
    intro h
    rw [hlike, if_pos ((filter_key_length_pos (fun like : Like => like.user) _ _).mpr h)]
  have hout : (∀ like ∈ P.likes, like.user ≠ req.user.id) →
      likePost validId db req =
        (Post.save db { P with likes := { user := req.user.id } :: P.likes },
          ⟨200, .likes ({ user := req.user.id } :: P.likes)⟩) := by
    intro h
    have hnot : ¬ (P.likes.filter (fun like => like.user == req.user.id)).length > 0 := by
      have := (filter_key_length_zero (fun like : Like => like.user) req.user.id P.likes).mpr h
      omega
    rw [hlike, if_neg hnot]
  refine ⟨hin, ?_, ?_⟩
  · intro h
    rw [hout h]
    exact ⟨rfl, Post.findById_save_self hP rfl⟩
  · -- after the first call the caller is in `likes`, whichever way it went
    have key : ∀ (db1 : DB) (P1 : Post),
        Post.findById validId db1 req.params.id = .ok (some P1) →
        (∃ like ∈ P1.likes, like.user = req.user.id) →
        (likePost validId db1 req2).2.status = 400 ∧ (likePost validId db1 req2).1 = db1 := by
      intro db1 P1 h1 hmem
      rw [← hpost] at h1
      rw [← hcaller] at hmem
      have := likePost_found h1
      rw [if_pos ((filter_key_length_pos (fun like : Like => like.user) _ _).mpr hmem)] at this
      rw [this]
      exact ⟨rfl, rfl⟩
    by_cases h : ∃ like ∈ P.likes, like.user = req.user.id
    · have h1 : Post.findById validId (likePost validId db req).1 req.params.id
          = .ok (some P) := by rw [hin h]; exact hP
      obtain ⟨k1, k2⟩ := key _ P h1 h
      exact ⟨P, h1, k1, k2, P, by rw [k2]; exact h1, rfl⟩
    · have h2 : ∀ like ∈ P.likes, like.user ≠ req.user.id := by
        intro like hl hu
        exact h ⟨like, hl, hu⟩
      have h1 : Post.findById validId (likePost validId db req).1 req.params.id
          = .ok (some { P with likes := { user := req.user.id } :: P.likes }) := by
        rw [hout h2]
        exact Post.findById_save_self hP rfl
      obtain ⟨k1, k2⟩ := key _ _ h1 ⟨{ user := req.user.id }, by simp, rfl⟩
      exact ⟨_, h1, k1, k2, _, by rw [k2]; exact h1, rfl⟩

/-- C2 at the worked store: Bob likes Alice's post twice. -/
theorem like_conflict_or_front_witness :
    (likePost Example.validId Example.db (Example.request Example.bob Example.hello.id)).2
      = ⟨200, .likes [⟨Example.bob.id⟩, ⟨Example.carol.id⟩]⟩ ∧
    (likePost Example.validId
      (likePost Example.validId Example.db (Example.request Example.bob Example.hello.id)).1
      (Example.request Example.bob Example.hello.id)).2.status = 400 :=
  have h := like_conflict_or_front Example.validId Example.db
    (Example.request Example.bob Example.hello.id)
    (Example.request Example.bob Example.hello.id) Example.hello rfl rfl rfl
  ⟨(h.2.1 (by decide)).1, h.2.2.elim (fun _ h1 => h1.2.1)⟩

/-! ## Unlike and undislike -/

/-- C3: on a post `P` found in the store, the unlike handler answers 400 exactly
when the caller is not in `P.likes`, and then saves nothing; otherwise it answers
200 with `P.likes` from which the first entry of the caller, and nothing else, was
removed, which is what it stores. The undislike handler does the same on
`P.dislikes`. -/
theorem unlike_removes_first (validId : String → Bool) (db : DB) (req : Request)
    (P : Post) (hP : Post.findById validId db req.params.id = .ok (some P)) :
    (((unlikePost validId db req).2.status = 400 ↔
        ∀ like ∈ P.likes, like.user ≠ req.user.id) ∧
      ((∀ like ∈ P.likes, like.user ≠ req.user.id) →
        unlikePost validId db req = (db, ⟨400, .msg "Hmm!! seems like you haven't liked it"⟩)) ∧
      ((∃ like ∈ P.likes, like.user = req.user.id) →
        ∃ likes, RemovesFirst (fun like : Like => like.user) req.user.id P.likes likes ∧
          (unlikePost validId db req).2 = ⟨200, .likes likes⟩ ∧
          Post.findById validId (unlikePost validId db req).1 req.params.id =
            .ok (some { P with likes := likes }))) ∧
    (((undislikePost validId db req).2.status = 400 ↔
        ∀ dislike ∈ P.dislikes, dislike.user ≠ req.user.id) ∧
      ((∀ dislike ∈ P.dislikes, dislike.user ≠ req.user.id) →
        undislikePost validId db req =
          (db, ⟨400, .msg "Hmm!! seems like you have undisliked it already"⟩)) ∧
      ((∃ dislike ∈ P.dislikes, dislike.user = req.user.id) →
        ∃ dislikes,
          RemovesFirst (fun dislike : Dislike => dislike.user) req.user.id P.dislikes dislikes ∧
          (undislikePost validId db req).2 = ⟨200, .dislikes dislikes⟩ ∧
          Post.findById validId (undislikePost validId db req).1 req.params.id =
            .ok (some { P with dislikes := dislikes }))) := by
  have hun := unlikePost_found hP
  have hundis := undislikePost_found hP
  have zl := filter_key_length_zero (fun like : Like => like.user) req.user.id P.likes
  have zd := filter_key_length_zero (fun dislike : Dislike => dislike.user) req.user.id P.dislikes
  constructor
  · refine ⟨?_, ?_, ?_⟩
    · by_cases h : (P.likes.filter (fun like => like.user == req.user.id)).length = 0
      · rw [hun, if_pos h]
        exact ⟨fun _ => zl.mp h, fun _ => rfl⟩
      · rw [hun, if_neg h]
        exact ⟨fun h4 => by simp at h4, fun hall => absurd (zl.mpr hall) h⟩
    · intro hall
      rw [hun, if_pos (zl.mpr hall)]
    · intro hex
      have h : ¬ (P.likes.filter (fun like => like.user == req.user.id)).length = 0 := by
        intro h0
        obtain ⟨x, hx, hxu⟩ := hex
        exact zl.mp h0 x hx hxu
      rw [hun, if_neg h]
      exact ⟨_, removesFirst_splice (fun like : Like => like.user) req.user.id P.likes hex, rfl,
        Post.findById_save_self hP rfl⟩
  · refine ⟨?_, ?_, ?_⟩
    · by_cases h : (P.dislikes.filter (fun dislike => dislike.user == req.user.id)).length = 0
      · rw [hundis, if_pos h]
        exact ⟨fun _ => zd.mp h, fun _ => rfl⟩
      · rw [hundis, if_neg h]
        exact ⟨fun h4 => by simp at h4, fun hall => absurd (zd.mpr hall) h⟩
    · intro hall
      rw [hundis, if_pos (zd.mpr hall)]
    · intro hex
      have h : ¬ (P.dislikes.filter (fun dislike => dislike.user == req.user.id)).length = 0 := by
        intro h0
        obtain ⟨x, hx, hxu⟩ := hex
        exact zd.mp h0 x hx hxu
      rw [hundis, if_neg h]
      exact ⟨_, removesFirst_splice (fun dislike : Dislike => dislike.user) req.user.id
        P.dislikes hex, rfl, Post.findById_save_self hP rfl⟩

/-- C3 at the worked store: Carol unlikes Alice's post, then Alice, who never
disliked it, tries to undislike it. -/
theorem unlike_removes_first_witness :
    (∃ likes, RemovesFirst (fun like : Like => like.user) Example.carol.id
        Example.hello.likes likes ∧
      (unlikePost Example.validId Example.db
        (Example.request Example.carol Example.hello.id)).2 = ⟨200, .likes likes⟩ ∧
      Post.findById Example.validId
        (unlikePost Example.validId Example.db
          (Example.request Example.carol Example.hello.id)).1 Example.hello.id =
        .ok (some { Example.hello with likes := likes })) ∧
    undislikePost Example.validId Example.db (Example.request Example.alice Example.hello.id) =
      (Example.db, ⟨400, .msg "Hmm!! seems like you have undisliked it already"⟩) :=
  ⟨(unlike_removes_first Example.validId Example.db
      (Example.request Example.carol Example.hello.id) Example.hello rfl).1.2.2 (by decide),
    (unlike_removes_first Example.validId Example.db
      (Example.request Example.alice Example.hello.id) Example.hello rfl).2.2.1 (by decide)⟩

/-! ## Each user reacts at most once -/

theorem Js.splice_sublist {α : Type} (xs : List α) (start : Int) (deleteCount : Nat) :
    (Js.splice xs start deleteCount).Sublist xs := by
  unfold Js.splice
  simp only
  generalize (if start < 0 then (max ((xs.length : Int) + start) 0).toNat
    else (min start (xs.length : Int)).toNat) = a
  generalize min deleteCount (xs.length - a) = c
  have h1 : (xs.drop (a + c)).Sublist (xs.drop a) := by
    rw [← List.drop_drop]
    exact List.drop_sublist _ _
  have h2 := List.Sublist.append (List.Sublist.refl (xs.take a)) h1
  rwa [List.take_append_drop] at h2

theorem Post.ReactsOnce.like {P : Post} {u : String} (h : P.ReactsOnce)
    (hu : ∀ like ∈ P.likes, like.user ≠ u) :
    Post.ReactsOnce { P with likes := { user := u } :: P.likes } := by
  refine ⟨?_, h.2⟩
  simp only [List.map_cons, List.nodup_cons]
  refine ⟨?_, h.1⟩
  intro hmem
  obtain ⟨like, hl, hlu⟩ := List.mem_map.mp hmem
  exact hu like hl hlu

theorem Post.ReactsOnce.dislike {P : Post} {u : String} (h : P.ReactsOnce)
    (hu : ∀ dislike ∈ P.dislikes, dislike.user ≠ u) :
    Post.ReactsOnce { P with dislikes := { user := u } :: P.dislikes } := by
  refine ⟨h.1, ?_⟩
  simp only [List.map_cons, List.nodup_cons]
  refine ⟨?_, h.2⟩
  intro hmem
  obtain ⟨dislike, hl, hlu⟩ := List.mem_map.mp hmem
  exact hu dislike hl hlu

theorem Post.ReactsOnce.unlike {P : Post} (h : P.ReactsOnce) (start : Int) (n : Nat) :
    Post.ReactsOnce { P with likes := Js.splice P.likes start n } :=
  ⟨List.Nodup.sublist ((Js.splice_sublist P.likes start n).map _) h.1, h.2⟩

theorem Post.ReactsOnce.undislike {P : Post} (h : P.ReactsOnce) (start : Int) (n : Nat) :
    Post.ReactsOnce { P with dislikes := Js.splice P.dislikes start n } :=
  ⟨h.1, List.Nodup.sublist ((Js.splice_sublist P.dislikes start n).map _) h.2⟩

theorem Post.mem_of_findById {validId : String → Bool} {db : DB} {i : String} {P : Post}
    (h : Post.findById validId db i = .ok (some P)) : P ∈ db.posts :=
  List.mem_of_find?_eq_some (Post.findById_ok h).2

theorem Post.mem_save {db : DB} {q p : Post} (h : p ∈ (Post.save db q).posts) :
    p = q ∨ p ∈ db.posts := by
  unfold Post.save at h
  split at h
  · obtain ⟨d, hd, hdp⟩ := List.mem_map.mp h
    split at hdp
    · exact Or.inl hdp.symm
    · exact Or.inr (hdp ▸ hd)
  · rcases List.mem_append.mp h with h | h
    · exact Or.inr h
    · exact Or.inl (by simpa using h)

theorem Post.mem_remove {db : DB} {q p : Post} (h : p ∈ (Post.remove db q).posts) :
    p ∈ db.posts :=
  (List.mem_filter.mp h).1

theorem StepShape.preserves {db db2 : DB} (h : StepShape db db2)
    (hall : ∀ p ∈ db.posts, p.ReactsOnce) : ∀ p ∈ db2.posts, p.ReactsOnce := by
  rcases h with rfl | ⟨q, rfl, hq⟩ | ⟨q, rfl⟩
  · exact hall
  · intro p hp
    rcases Post.mem_save hp with rfl | hp
    · exact hq hall
    · exact hall p hp
  · intro p hp
    exact hall p (Post.mem_remove hp)

theorem likePost_shape (validId : String → Bool) (db : DB) (req : Request) :
    StepShape db (likePost validId db req).1 := by
  cases hfind : Post.findById validId db req.params.id with
  | error e => exact Or.inl (by simp [likePost, hfind])
  | ok found =>
    cases found with
    | none => exact Or.inl (by simp [likePost, hfind])
    | some P =>
      rw [likePost_found hfind]
      split
      · exact Or.inl rfl
      · next hc =>
        refine Or.inr (Or.inl ⟨_, rfl, fun hall => ?_⟩)
        refine Post.ReactsOnce.like (hall P (Post.mem_of_findById hfind)) ?_
        apply (filter_key_length_zero (fun like : Like => like.user) req.user.id P.likes).mp
        omega

theorem unlikePost_shape (validId : String → Bool) (db : DB) (req : Request) :
    StepShape db (unlikePost validId db req).1 := by
  cases hfind : Post.findById validId db req.params.id with
  | error e => exact Or.inl (by simp [unlikePost, hfind])
  | ok found =>
    cases found with
    | none => exact Or.inl (by simp [unlikePost, hfind])
    | some P =>
      rw [unlikePost_found hfind]
      split
      · exact Or.inl rfl
      · exact Or.inr (Or.inl ⟨_, rfl, fun hall =>
          Post.ReactsOnce.unlike (hall P (Post.mem_of_findById hfind)) _ _⟩)

theorem dislikePost_shape (validId : String → Bool) (db : DB) (req : Request) :
    StepShape db (dislikePost validId db req).1 := by
  cases hfind : Post.findById validId db req.params.id with
  | error e => exact Or.inl (by simp [dislikePost, hfind])
  | ok found =>
    cases found with
    | none => exact Or.inl (by simp [dislikePost, hfind])
    | some P =>
      rw [dislikePost_found hfind]
      split
      · exact Or.inl rfl
      · next hc =>
        refine Or.inr (Or.inl ⟨_, rfl, fun hall => ?_⟩)
        refine Post.ReactsOnce.dislike (hall P (Post.mem_of_findById hfind)) ?_
        apply (filter_key_length_zero (fun dislike : Dislike => dislike.user)
          req.user.id P.dislikes).mp
        omega

theorem undislikePost_shape (validId : String → Bool) (db : DB) (req : Request) :
    StepShape db (undislikePost validId db req).1 := by
  cases hfind : Post.findById validId db req.params.id with
  | error e => exact Or.inl (by simp [undislikePost, hfind])
  | ok found =>
    cases found with
    | none => exact Or.inl (by simp [undislikePost, hfind])
    | some P =>
      rw [undislikePost_found hfind]
      split
      · exact Or.inl rfl
      · exact Or.inr (Or.inl ⟨_, rfl, fun hall =>
          Post.ReactsOnce.undislike (hall P (Post.mem_of_findById hfind)) _ _⟩)

theorem deleteComment_found {validId : String → Bool} {db : DB} {req : Request} {P : Post}
    (hP : Post.findById validId db req.params.id = .ok (some P)) :
    deleteComment validId db req =
      match P.comments.find? (fun comment => comment.id == req.params.comment_id) with
      | none => (db, ⟨404, .msg "!Comment exist developer"⟩)
      | some comment =>
        if comment.user ≠ req.user.id then
          (db, ⟨401, .msg "You are not authorize to do this, Buddy!"⟩)
        else
          (Post.save db
              { P with
                comments := Js.splice P.comments
                  (Js.indexOf (P.comments.map (fun comment => comment.user)) req.user.id) 1 },
            ⟨200, .comments (Js.splice P.comments
              (Js.indexOf (P.comments.map (fun comment => comment.user)) req.user.id) 1)⟩) := by
  cases hc : P.comments.find? (fun comment => comment.id == req.params.comment_id) with
  | none => simp only [deleteComment, hP, hc]
  | some comment =>
    by_cases hu : comment.user ≠ req.user.id
    · simp only [deleteComment, hP, hc, if_pos hu]
    · simp only [deleteComment, hP, hc, if_neg hu, Response.json]

theorem addComment_found {validId : String → Bool} {gen : Fresh} {db : DB} {req : Request}
    {P : Post} {u : User} (hvalid : validationResult req = [])
    (hU : User.findById validId db req.user.id = .ok (some u))
    (hP : Post.findById validId db req.params.id = .ok (some P)) :
    addComment validId gen db req =
      (Post.save db { P with comments := newCommentOf gen req u :: P.comments },
        ⟨200, .comments (newCommentOf gen req u :: P.comments)⟩) := by
  simp [addComment, hvalid, hU, hP, User.selectMinusPassword, Js.unshift, Response.json,
    newCommentOf]

theorem createPost_shape (validId : String → Bool) (gen : Fresh) (db : DB) (req : Request) :
    StepShape db (createPost validId gen db req).1 := by
  unfold createPost
  simp only
  split
  · exact Or.inl rfl
  · cases hu : User.findById validId db req.user.id with
    | error e => exact Or.inl rfl
    | ok found =>
      cases hs : User.selectMinusPassword found with
      | none => exact Or.inl (by simp only [hs])
      | some user =>
        simp only [hs]
        exact Or.inr (Or.inl ⟨_, rfl, fun _ => ⟨List.nodup_nil, List.nodup_nil⟩⟩)

theorem getPostById_db (validId : String → Bool) (db : DB) (req : Request) :
    (getPostById validId db req).1 = db := by
  unfold getPostById
  cases hfind : Post.findById validId db req.params.id with
  | error e => simp only; split <;> rfl
  | ok found => cases found <;> rfl

theorem deletePost_found {validId : String → Bool} {db : DB} {req : Request} {P : Post}
    (hP : Post.findById validId db req.params.id = .ok (some P)) :
    deletePost validId db req =
      if P.user ≠ req.user.id then (db, ⟨401, .msg "User not authorized"⟩)
      else (Post.remove db P, ⟨200, .msg "Post removed"⟩) := by
  by_cases hu : P.user ≠ req.user.id
  · simp only [deletePost, hP, if_pos hu]
  · simp only [deletePost, hP, if_neg hu, Response.json]

theorem deletePost_shape (validId : String → Bool) (db : DB) (req : Request) :
    StepShape db (deletePost validId db req).1 := by
  cases hfind : Post.findById validId db req.params.id with
  | error e =>
    refine Or.inl ?_
    simp only [deletePost, hfind]
    split <;> rfl
  | ok found =>
    cases found with
    | none => exact Or.inl (by simp [deletePost, hfind])
    | some P =>
      rw [deletePost_found hfind]
      split
      · exact Or.inl rfl
      · exact Or.inr (Or.inr ⟨P, rfl⟩)

theorem addComment_shape (validId : String → Bool) (gen : Fresh) (db : DB) (req : Request) :
    StepShape db (addComment validId gen db req).1 := by
  unfold addComment
  simp only
  split
  · exact Or.inl rfl
  · cases hu : User.findById validId db req.user.id with
    | error e => exact Or.inl rfl
    | ok found =>
      cases hfind : Post.findById validId db req.params.id with
      | error e => exact Or.inl rfl
      | ok post? =>
        cases hs : User.selectMinusPassword found with
        | none => exact Or.inl (by simp only [hs])
        | some user =>
          cases post? with
          | none => exact Or.inl (by simp only [hs])
          | some P =>
            simp only [hs]
            exact Or.inr (Or.inl ⟨_, rfl, fun hall => hall P (Post.mem_of_findById hfind)⟩)

theorem deleteComment_shape (validId : String → Bool) (db : DB) (req : Request) :
    StepShape db (deleteComment validId db req).1 := by
  cases hfind : Post.findById validId db req.params.id with
  | error e => exact Or.inl (by simp [deleteComment, hfind])
  | ok found =>
    cases found with
    | none => exact Or.inl (by simp [deleteComment, hfind])
    | some P =>
      rw [deleteComment_found hfind]
      split
      · exact Or.inl rfl
      · split
        · exact Or.inl rfl
        · exact Or.inr (Or.inl ⟨_, rfl, fun hall => hall P (Post.mem_of_findById hfind)⟩)

theorem Route.handle_shape (validId : String → Bool) (gen : Fresh) (db : DB) (req : Request)
    (route : Route) : StepShape db (route.handle validId gen db req).1 := by
  cases route
  · exact createPost_shape validId gen db req
  · exact Or.inl (getPostById_db validId db req)
  · exact deletePost_shape validId db req
  · exact likePost_shape validId db req
  · exact unlikePost_shape validId db req
  · exact dislikePost_shape validId db req
  · exact undislikePost_shape validId db req
  · exact addComment_shape validId gen db req
  · exact deleteComment_shape validId db req

theorem Reachable.reactsOnce {validId : String → Bool} {db : DB} (h : Reachable validId db) :
    ∀ p ∈ db.posts, p.ReactsOnce := by
  induction h with
  | init users => intro p hp; simp at hp
  | users db users _ ih => exact ih
  | request db route gen req _ ih => exact (Route.handle_shape validId gen db req route).preserves ih

/-- The reachable stores are not only the ones without posts: Alice creates a
post, Bob likes it, and the stored post carries his like. -/
theorem Example.reachable_liked :
    Reachable Example.validId
      (likePost Example.validId
        (createPost Example.validId Example.gen ⟨Example.db.users, []⟩
          (Example.commentRequest Example.alice "" "hello")).1
        (Example.request Example.bob Example.gen._id)).1 ∧
    (likePost Example.validId
        (createPost Example.validId Example.gen ⟨Example.db.users, []⟩
          (Example.commentRequest Example.alice "" "hello")).1
        (Example.request Example.bob Example.gen._id)).1.posts =
      [{ id := Example.gen._id, user := Example.alice.id, text := "hello", name := "Alice",
         avatar := "alice.png", likes := [⟨Example.bob.id⟩], dislikes := [], comments := [],
         date := 50 }] :=
  ⟨Reachable.request _ Route.likePost Example.gen (Example.request Example.bob Example.gen._id)
      (Reachable.request _ Route.createPost Example.gen
        (Example.commentRequest Example.alice "" "hello") (Reachable.init Example.db.users)),
    by decide⟩

/-- C4: when a post found in the store has every user at most once in `likes`
and at most once in `dislikes`, then after the like, unlike, dislike or undislike
handler ran on it, for any caller and whatever the answer, the post is still in
the store and still has every user at most once in `likes` and at most once in
`dislikes`; and every post of every store reachable from a store without posts,
by requests on any route, has the property. -/
theorem reactions_keep_once (validId : String → Bool) (gen : Fresh) (db : DB) (req : Request)
    (route : Route)
    (hroute : route ∈ [Route.likePost, Route.unlikePost, Route.dislikePost, Route.undislikePost])
    (P : Post) (hP : Post.findById validId db req.params.id = .ok (some P))
    (honce : P.ReactsOnce) :
    (∃ P2, Post.findById validId (route.handle validId gen db req).1 req.params.id
        = .ok (some P2) ∧ P2.ReactsOnce) ∧
    (∀ db0, Reachable validId db0 → ∀ p ∈ db0.posts, p.ReactsOnce) := by
  refine ⟨?_, fun db0 h => h.reactsOnce⟩
  simp only [List.mem_cons, List.mem_singleton, List.not_mem_nil, or_false] at hroute
  rcases hroute with rfl | rfl | rfl | rfl
  · show ∃ P2, Post.findById validId (likePost validId db req).1 req.params.id = _ ∧ _
    rw [likePost_found hP]
    split
    · exact ⟨P, hP, honce⟩
    · next hc =>
      refine ⟨_, Post.findById_save_self hP rfl, honce.like ?_⟩
      apply (filter_key_length_zero (fun like : Like => like.user) req.user.id P.likes).mp
      omega
  · show ∃ P2, Post.findById validId (unlikePost validId db req).1 req.params.id = _ ∧ _
    rw [unlikePost_found hP]
    split
    · exact ⟨P, hP, honce⟩
    · exact ⟨_, Post.findById_save_self hP rfl, honce.unlike _ _⟩
  · show ∃ P2, Post.findById validId (dislikePost validId db req).1 req.params.id = _ ∧ _
    rw [dislikePost_found hP]
    split
    · exact ⟨P, hP, honce⟩
    · next hc =>
      refine ⟨_, Post.findById_save_self hP rfl, honce.dislike ?_⟩
      apply (filter_key_length_zero (fun dislike : Dislike => dislike.user)
        req.user.id P.dislikes).mp
      omega
  · show ∃ P2, Post.findById validId (undislikePost validId db req).1 req.params.id = _ ∧ _
    rw [undislikePost_found hP]
    split
    · exact ⟨P, hP, honce⟩
    · exact ⟨_, Post.findById_save_self hP rfl, honce.undislike _ _⟩

/-- C4 at the worked store: Bob, who dislikes Alice's post, dislikes it again. -/
theorem reactions_keep_once_witness :
    (∃ P2, Post.findById Example.validId
        (Route.dislikePost.handle Example.validId ⟨"5f00000000000000000000ff", 50⟩ Example.db
          (Example.request Example.bob Example.hello.id)).1 Example.hello.id
        = .ok (some P2) ∧ P2.ReactsOnce) ∧
    (∀ db0, Reachable Example.validId db0 → ∀ p ∈ db0.posts, p.ReactsOnce) :=
  reactions_keep_once Example.validId ⟨"5f00000000000000000000ff", 50⟩ Example.db
    (Example.request Example.bob Example.hello.id) Route.dislikePost (by decide)
    Example.hello rfl (by decide)

/-! ## Deleting a post -/

theorem getPostById_found {validId : String → Bool} {db : DB} {req : Request} {P : Post}
    (hP : Post.findById validId db req.params.id = .ok (some P)) :
    getPostById validId db req = (db, ⟨200, .post P⟩) := by
  simp only [getPostById, hP, Response.json]

theorem getPostById_absent {validId : String → Bool} {db : DB} {req : Request}
    (hP : Post.findById validId db req.params.id = .ok none) :
    getPostById validId db req = (db, ⟨404, .msg "Post not found"⟩) := by
  simp only [getPostById, hP]

/-- Looking a document up after the documents with identifier `j` were removed. -/
theorem find_filter_id (i j : String) (docs : List Post) :
    (docs.filter (fun d => !(d.id == j))).find? (fun d => d.id == i) =
      if i = j then none else docs.find? (fun d => d.id == i) := by
  induction docs with
  | nil => simp
  | cons d ds ih =>
    by_cases hdj : d.id = j
    · by_cases hij : i = j
      · simp [List.filter_cons, hdj, ih, hij]
      · have hji : ¬ j = i := fun h => hij h.symm
        simp [List.filter_cons, List.find?_cons, hdj, ih, hij, hji]
    · by_cases hdi : d.id = i
      · have hij : ¬ i = j := fun h => hdj (hdi.trans h)
        simp [List.filter_cons, List.find?_cons, hdj, hdi, hij]
      · simp [List.filter_cons, List.find?_cons, hdj, hdi, ih]

theorem Post.findById_remove (validId : String → Bool) (db : DB) (q : Post) (i : String) :
    Post.findById validId (Post.remove db q) i =
      if validId i then (if i = q.id then .ok none else Post.findById validId db i)
      else .error castError := by
  unfold Post.findById Post.remove
  simp only [find_filter_id]
  by_cases hv : validId i = true
  · by_cases hi : i = q.id
    · simp [hv, hi]
    · simp [hv, hi]
  · simp [hv]

/-- C5: when the caller is not the owner of a post `P` found in the store, the
delete-post handler answers 401 with the authorization message and leaves the
store as it was; a get-by-id for the same id afterwards answers 200 with `P`. -/
theorem delete_post_not_owner (validId : String → Bool) (db : DB) (req req2 : Request)
    (P : Post) (hP : Post.findById validId db req.params.id = .ok (some P))
    (hother : P.user ≠ req.user.id) (hpost : req2.params.id = req.params.id) :
    deletePost validId db req = (db, ⟨401, .msg "User not authorized"⟩) ∧
    (getPostById validId (deletePost validId db req).1 req2).2 = ⟨200, .post P⟩ := by
  have hdel := deletePost_found hP
  rw [if_pos hother] at hdel
  refine ⟨hdel, ?_⟩
  rw [hdel]
  rw [← hpost] at hP
  rw [getPostById_found hP]

/-- C5 at the worked store: Bob tries to delete Alice's post, Carol reads it. -/
theorem delete_post_not_owner_witness :
    deletePost Example.validId Example.db (Example.request Example.bob Example.hello.id) =
      (Example.db, ⟨401, .msg "User not authorized"⟩) ∧
    (getPostById Example.validId
      (deletePost Example.validId Example.db
        (Example.request Example.bob Example.hello.id)).1
      (Example.request Example.carol Example.hello.id)).2 = ⟨200, .post Example.hello⟩ :=
  delete_post_not_owner Example.validId Example.db
    (Example.request Example.bob Example.hello.id)
    (Example.request Example.carol Example.hello.id) Example.hello rfl (by decide) rfl

/-- C6: when the caller is the owner of a post `P` found in the store, the
delete-post handler answers 200 with the message `Post removed`; afterwards a
get-by-id for the same id answers 404 `Post not found`, the stored posts are the
former ones without those of that id, every other id is looked up as before and
the users are untouched. -/
theorem delete_post_owner (validId : String → Bool) (db : DB) (req req2 : Request)
    (P : Post) (hP : Post.findById validId db req.params.id = .ok (some P))
    (howner : P.user = req.user.id) (hpost : req2.params.id = req.params.id) :
    (deletePost validId db req).2 = ⟨200, .msg "Post removed"⟩ ∧
    (getPostById validId (deletePost validId db req).1 req2).2
      = ⟨404, .msg "Post not found"⟩ ∧
    (∀ p, p ∈ (deletePost validId db req).1.posts ↔ (p ∈ db.posts ∧ p.id ≠ req.params.id)) ∧
    (∀ i, i ≠ req.params.id →
      Post.findById validId (deletePost validId db req).1 i = Post.findById validId db i) ∧
    (deletePost validId db req).1.users = db.users := by
  have hdel := deletePost_found hP
  rw [if_neg (not_not.mpr howner)] at hdel
  have hid : P.id = req.params.id := Post.findById_id hP
  have hv : validId req.params.id = true := (Post.findById_ok hP).1
  rw [hdel]
  refine ⟨rfl, ?_, ?_, ?_, rfl⟩
  · have habsent : Post.findById validId (Post.remove db P) req2.params.id = .ok none := by
      rw [Post.findById_remove, hpost, hid]
      simp [hv]
    rw [getPostById_absent habsent]
  · intro p
    simp [Post.remove, List.mem_filter, hid]
  · intro i hi
    rw [Post.findById_remove, hid, if_neg hi]
    unfold Post.findById
    split <;> rfl

/-- C6 at the worked store: Bob deletes his post. -/
theorem delete_post_owner_witness :
    (deletePost Example.validId Example.db
      (Example.request Example.bob Example.world.id)).2 = ⟨200, .msg "Post removed"⟩ ∧
    (getPostById Example.validId
      (deletePost Example.validId Example.db (Example.request Example.bob Example.world.id)).1
      (Example.request Example.alice Example.world.id)).2 = ⟨404, .msg "Post not found"⟩ ∧
    Post.findById Example.validId
      (deletePost Example.validId Example.db (Example.request Example.bob Example.world.id)).1
      Example.hello.id = Post.findById Example.validId Example.db Example.hello.id :=
  have h := delete_post_owner Example.validId Example.db
    (Example.request Example.bob Example.world.id)
    (Example.request Example.alice Example.world.id) Example.world rfl rfl rfl
  ⟨h.1, h.2.1, h.2.2.2.1 Example.hello.id (by decide)⟩

/-! ## Comments -/

/-- With a non-empty `text`, a post id that is looked up without error and not
found makes the add-comment handler answer 500. -/
theorem addComment_absent {validId : String → Bool} {gen : Fresh} {db : DB} {req : Request}
    (hvalid : validationResult req = [])
    (hP : Post.findById validId db req.params.id = .ok none) :
    addComment validId gen db req = (db, ⟨500, .send "Server error comments"⟩) := by
  unfold addComment
  simp only [hvalid, hP]
  cases User.findById validId db req.user.id with
  | error e => rfl
  | ok found =>
    cases hs : User.selectMinusPassword found with
    | none => simp [hs]
    | some user => simp [hs]

/-- C7: at the worked store, Carol comments `nice` on a well-formed post id that
no post has: the lookup yields no post, the add-comment handler answers 500
`Server error comments` and not 404, where get-by-id for the same id answers 404
`Post not found`. -/
theorem addComment_missing_post_answers_500 :
    Post.findById Example.validId Example.db Example.missing = .ok none ∧
    validationResult (Example.commentRequest Example.carol Example.missing "nice") = [] ∧
    addComment Example.validId Example.gen Example.db
      (Example.commentRequest Example.carol Example.missing "nice") =
      (Example.db, ⟨500, .send "Server error comments"⟩) ∧
    getPostById Example.validId Example.db
      (Example.commentRequest Example.carol Example.missing "nice") =
      (Example.db, ⟨404, .msg "Post not found"⟩) :=
  ⟨rfl, rfl, addComment_absent rfl rfl, getPostById_absent rfl⟩

/-- C8, as amended: for a post `P` found in the store, a caller whose user
record `u` is found by the user lookup and a non-empty text `t`, the add-comment
handler answers 200 with a new comment followed by `P.comments`; the new comment
has text `t`, the caller as user and the name and avatar of `u`; the sequence is
one longer than `P.comments`; the stored post is `P` with these comments, so its
likes and dislikes are those of `P`. -/
theorem addComment_front (validId : String → Bool) (gen : Fresh) (db : DB) (req : Request)
    (P : Post) (u : User) (t : String)
    (hP : Post.findById validId db req.params.id = .ok (some P))
    (hU : User.findById validId db req.user.id = .ok (some u))
    (ht : req.body.text = some t) (hne : t ≠ "") :
    ∃ c : Comment, c.text = t ∧ c.user = req.user.id ∧ c.name = u.name ∧ c.avatar = u.avatar ∧
      (addComment validId gen db req).2 = ⟨200, .comments (c :: P.comments)⟩ ∧
      (c :: P.comments).length = P.comments.length + 1 ∧
      ∃ P2, Post.findById validId (addComment validId gen db req).1 req.params.id
          = .ok (some P2) ∧
        P2 = { P with comments := c :: P.comments } ∧
        P2.likes = P.likes ∧ P2.dislikes = P.dislikes := by
  have hvalid : validationResult req = [] := by
    simp [validationResult, ht, hne]
  have hadd : addComment validId gen db req = _ := addComment_found hvalid hU hP
  refine ⟨newCommentOf gen req u, ?_, rfl, rfl, rfl, ?_, rfl, ?_⟩
  · simp [newCommentOf, ht]
  · rw [hadd]
  · rw [hadd]
    exact ⟨_, Post.findById_save_self hP rfl, rfl, rfl, rfl⟩

/-- C8, as amended, at the worked store: Carol comments `nice` on Alice's post,
which has three comments, a like and a dislike. -/
theorem addComment_front_witness :
    ∃ c : Comment, c.text = "nice" ∧ c.user = Example.carol.id ∧
      c.name = Example.carol.name ∧ c.avatar = Example.carol.avatar ∧
      (addComment Example.validId Example.gen Example.db
        (Example.commentRequest Example.carol Example.hello.id "nice")).2
        = ⟨200, .comments (c :: Example.hello.comments)⟩ ∧
      (c :: Example.hello.comments).length = Example.hello.comments.length + 1 ∧
      ∃ P2, Post.findById Example.validId
          (addComment Example.validId Example.gen Example.db
            (Example.commentRequest Example.carol Example.hello.id "nice")).1
          Example.hello.id = .ok (some P2) ∧
        P2 = { Example.hello with comments := c :: Example.hello.comments } ∧
        P2.likes = Example.hello.likes ∧ P2.dislikes = Example.hello.dislikes :=
  addComment_front Example.validId Example.gen Example.db
    (Example.commentRequest Example.carol Example.hello.id "nice") Example.hello Example.carol
    "nice" rfl rfl rfl (by decide)

/-- C8 as stated fails: at the worked store Dave, whose identity resolves and whose
user record is gone, comments `nice` on Alice's post, which is found. The user
lookup yields no record, `user.name` throws, and the add-comment handler answers
500 `Server error comments` with the store as it was, not 200 with the comments.
So the statement for every found post, every caller and every non-empty text does
not hold. -/
theorem addComment_caller_without_record :
    (Post.findById Example.validId Example.db Example.hello.id = .ok (some Example.hello) ∧
      (Example.commentRequest Example.dave Example.hello.id "nice").body.text = some "nice" ∧
      "nice" ≠ "" ∧
      User.findById Example.validId Example.db Example.dave.id = .ok none ∧
      addComment Example.validId Example.gen Example.db
        (Example.commentRequest Example.dave Example.hello.id "nice") =
        (Example.db, ⟨500, .send "Server error comments"⟩)) ∧
    ¬ (∀ (validId : String → Bool) (gen : Fresh) (db : DB) (req : Request) (P : Post)
        (t : String),
        Post.findById validId db req.params.id = .ok (some P) →
        req.body.text = some t → t ≠ "" →
        ∃ c : Comment, c.text = t ∧ c.user = req.user.id ∧
          (addComment validId gen db req).2 = ⟨200, .comments (c :: P.comments)⟩) := by
  refine ⟨⟨rfl, rfl, by decide, rfl, by decide⟩, ?_⟩
  intro h
  obtain ⟨c, _, _, hc⟩ := h Example.validId Example.gen Example.db
    (Example.commentRequest Example.dave Example.hello.id "nice") Example.hello "nice"
    rfl rfl (by decide)
  have h500 : (addComment Example.validId Example.gen Example.db
      (Example.commentRequest Example.dave Example.hello.id "nice")).2 =
      ⟨500, .send "Server error comments"⟩ := by decide
  rw [h500] at hc
  have hstatus : (500 : Nat) = 200 := congrArg Response.status hc
  exact absurd hstatus (by decide)

/-- C9: on a post `P` found in the store, the delete-comment handler answers 404
and leaves the store as it was when no comment of `P` has the addressed id; and
when the comment `c` the id addresses (the entry `find` yields for it) has a user
other than the caller, it answers 401 and leaves the store as it was, so `c` is
still among the comments of the stored post. -/
theorem deleteComment_refused (validId : String → Bool) (db : DB) (req : Request)
    (P : Post) (hP : Post.findById validId db req.params.id = .ok (some P)) :
    ((∀ c ∈ P.comments, c.id ≠ req.params.comment_id) →
      deleteComment validId db req = (db, ⟨404, .msg "!Comment exist developer"⟩)) ∧
    (∀ c, P.comments.find? (fun comment => comment.id == req.params.comment_id) = some c →
      c.user ≠ req.user.id →
      deleteComment validId db req =
        (db, ⟨401, .msg "You are not authorize to do this, Buddy!"⟩) ∧
      ∃ P2, Post.findById validId (deleteComment validId db req).1 req.params.id
          = .ok (some P2) ∧ P2.comments = P.comments ∧ c ∈ P2.comments) := by
  have hdel := deleteComment_found hP
  constructor
  · intro hnone
    have hfind : P.comments.find? (fun comment => comment.id == req.params.comment_id)
        = none := by
      rw [List.find?_eq_none]
      intro c hc
      simpa using hnone c hc
    rw [hdel, hfind]
  · intro c hc hother
    have h401 : deleteComment validId db req =
        (db, ⟨401, .msg "You are not authorize to do this, Buddy!"⟩) := by
      rw [hdel, hc]
      simp only [if_pos hother]
    refine ⟨h401, P, ?_, rfl, List.mem_of_find?_eq_some hc⟩
    rw [h401]
    exact hP

/-- C9 at the worked store: on Alice's post, Carol addresses a comment id that no
comment has, then Bob's first comment. -/
theorem deleteComment_refused_witness :
    deleteComment Example.validId Example.db
      (Example.deleteCommentRequest Example.carol Example.hello.id Example.missing) =
      (Example.db, ⟨404, .msg "!Comment exist developer"⟩) ∧
    deleteComment Example.validId Example.db
      (Example.deleteCommentRequest Example.carol Example.hello.id Example.bobFirst.id) =
      (Example.db, ⟨401, .msg "You are not authorize to do this, Buddy!"⟩) :=
  ⟨(deleteComment_refused Example.validId Example.db
      (Example.deleteCommentRequest Example.carol Example.hello.id Example.missing)
      Example.hello rfl).1 (by decide),
    ((deleteComment_refused Example.validId Example.db
      (Example.deleteCommentRequest Example.carol Example.hello.id Example.bobFirst.id)
      Example.hello rfl).2 Example.bobFirst rfl (by decide)).1⟩

/-- C10: on a post `P` found in the store, when the comment `c` the id addresses
(the entry `find` yields for it) has the caller as user, the delete-comment
handler answers 200 with `P.comments` from which the first entry of the caller,
and nothing else, was removed, which is what it stores. When no entry before `c`
is of the caller, the removed entry is `c`. And in some store a caller with two
comments on a post addresses the later-positioned one, and the answer has lost
the other one and still holds the addressed one. -/
theorem deleteComment_removes_first_of_caller (validId : String → Bool) (db : DB)
    (req : Request) (P : Post) (c : Comment)
    (hP : Post.findById validId db req.params.id = .ok (some P))
    (hc : P.comments.find? (fun comment => comment.id == req.params.comment_id) = some c)
    (hauthor : c.user = req.user.id) :
    (∃ comments,
      RemovesFirst (fun comment : Comment => comment.user) req.user.id P.comments comments ∧
      (deleteComment validId db req).2 = ⟨200, .comments comments⟩ ∧
      Post.findById validId (deleteComment validId db req).1 req.params.id =
        .ok (some { P with comments := comments })) ∧
    (∀ pre post, P.comments = pre ++ c :: post → (∀ x ∈ pre, x.user ≠ req.user.id) →
      (deleteComment validId db req).2 = ⟨200, .comments (pre ++ post)⟩) ∧
    (∃ (valid0 : String → Bool) (db0 : DB) (req0 : Request) (P0 : Post) (c1 c2 : Comment)
        (mid : List Comment),
      Post.findById valid0 db0 req0.params.id = .ok (some P0) ∧
      P0.comments = c1 :: mid ++ [c2] ∧ c1.user = req0.user.id ∧ c2.user = req0.user.id ∧
      c1.id ≠ c2.id ∧ req0.params.comment_id = c2.id ∧
      (deleteComment valid0 db0 req0).2 = ⟨200, .comments (mid ++ [c2])⟩ ∧
      c1 ∉ mid ++ [c2]) := by
  have hdel := deleteComment_found hP
  rw [hc] at hdel
  simp only [if_neg (not_not.mpr hauthor)] at hdel
  refine ⟨?_, ?_, ?_⟩
  · have hex : ∃ x ∈ P.comments, (fun comment : Comment => comment.user) x = req.user.id :=
      ⟨c, List.mem_of_find?_eq_some hc, hauthor⟩
    rw [hdel]
    exact ⟨_, removesFirst_splice _ _ _ hex, rfl, Post.findById_save_self hP rfl⟩
  · intro pre post hsplit hpre
    rw [hdel, hsplit,
      splice_indexOf_split (fun comment : Comment => comment.user) req.user.id pre post c
        hauthor hpre]
  · exact ⟨Example.validId, Example.db,
      Example.deleteCommentRequest Example.bob Example.hello.id Example.bobFirst.id,
      Example.hello, Example.bobSecond, Example.bobFirst, [Example.carolNote],
      rfl, rfl, rfl, rfl, by decide, rfl, by decide, by decide⟩

/-- C10 at the worked store: Bob addresses his first comment on Alice's post, the
last of the sequence, and his second comment, the first of the sequence, goes. -/
theorem deleteComment_removes_first_of_caller_witness :
    ∃ comments,
      RemovesFirst (fun comment : Comment => comment.user) Example.bob.id
        Example.hello.comments comments ∧
      (deleteComment Example.validId Example.db
        (Example.deleteCommentRequest Example.bob Example.hello.id Example.bobFirst.id)).2
        = ⟨200, .comments comments⟩ :=
  (deleteComment_removes_first_of_caller Example.validId Example.db
    (Example.deleteCommentRequest Example.bob Example.hello.id Example.bobFirst.id)
    Example.hello Example.bobFirst rfl rfl rfl).1.imp (fun _ h => ⟨h.1, h.2.1⟩)

end Posts
